import Mathlib

/-!
Shallow embedding of `src/engine/plugin.rs` from ionProject/ion_core.

The Rust module defines a plugin discovery facility:
  * `PluginType` and `PluginState` enums,
  * a `Plugin` metadata record,
  * a `PluginManager` holding a `Vec<Plugin>` and a platform module suffix,
    with operations `new`, `query_plugins` and `get_plugin`.

The effectful ingredients of `query_plugins` — the `glob` crate call and the
`libloading` dynamic-module calls — are external to the embedded code; they
are modelled as explicit function parameters (`GlobFn`, `LoadFn`).  A Rust
`panic` (every `.unwrap()` in the source, and the `panic!` in `new`) is
modelled as the `none` outcome of an `Option`-valued operation.
-/

namespace IonCore

/-- Embeds `enum PluginType` (plugin.rs lines 31-39): the closed set of
backend capability categories. -/
inductive PluginType where
  | AudioBackend
  | RenderBackend
  | WindowBackend
  deriving DecidableEq, Repr

/-- Embeds `enum PluginState` (plugin.rs lines 47-59): the plugin lifecycle
states. -/
inductive PluginState where
  | Unloaded
  | MarkedForLoad
  | Loaded
  | Disabled
  deriving DecidableEq, Repr

/-- Embeds `struct Plugin` (plugin.rs lines 67-82): the metadata record for
one discovered plugin. -/
structure Plugin where
  name : String
  author : String
  description : String
  path : String
  plugin_type : PluginType
  plugin_state : PluginState
  deriving DecidableEq, Repr

/-- Embeds `struct PluginManager` (plugin.rs lines 90-98).  The Rust private
field is named `_plugin_ext`; the same name is kept here. -/
structure PluginManager where
  plugin_list : List Plugin
  _plugin_ext : String
  deriving DecidableEq, Repr

/-- Models one native dynamic module as seen through `libloading`: for each
of the four entry points required by `query_plugins` (plugin.rs lines
145-159), `some v` means the symbol resolves and calling it returns `v`,
and `none` means `lib.get` fails (so the source's `.unwrap()` panics).
The entry-point call itself is total in the source's types
(`fn () -> String`, `fn () -> PluginType`), so symbol value and call result
are combined. -/
structure NativeModule where
  get_name : Option String
  get_author : Option String
  get_description : Option String
  get_type : Option PluginType
  deriving DecidableEq, Repr

/-- Environment for the `glob` crate call at plugin.rs line 140: maps a
pattern string to `none` when `glob` returns `Err (PatternError)` (so the
source's `.unwrap()` panics), or to the list of per-path `GlobResult`s,
where an element `none` is a `GlobError` entry (dropped by the source's
`.filter_map (Result::ok)`) and `some p` is a matched path. -/
def GlobFn : Type := String → Option (List (Option String))

/-- Environment for `Library::new` at plugin.rs line 143: `none` means the
open fails (so the source's `.unwrap()` panics). -/
def LoadFn : Type := String → Option NativeModule

/-- Embeds `PluginManager::new` (plugin.rs lines 113-123), parameterised by
the `target_os` string that the `cfg!` macros test at build time.  The
source's `panic! ("Platform unsupported")` branch is the `none` result. -/
def PluginManager.new (target_os : String) : Option PluginManager :=
  let plug_ext : Option String :=
    if target_os = "windows" then some ".dll"
    else if target_os = "linux" then some ".so"
    else if target_os = "macos" then some ".dylib"
    else none
  match plug_ext with
  | some ext => some { plugin_list := [], _plugin_ext := ext }
  | none => none

/-- Embeds the body of one iteration of the `query_plugins` loop (plugin.rs
lines 143-169): resolve the four entry points, call them, and build the
`Plugin` record with `plugin_state: PluginState::Unloaded` and `path` set to
the candidate's path.  Any failed symbol resolution is a panic (`none`). -/
def introspect (lib : NativeModule) (path : String) : Option Plugin :=
  match lib.get_name, lib.get_author, lib.get_description, lib.get_type with
  | some name, some author, some description, some ty =>
      some { name := name, author := author, description := description,
             path := path, plugin_type := ty,
             plugin_state := PluginState.Unloaded }
  | _, _, _, _ => none

/-- Processing of one candidate path in `query_plugins`: `Library::new`
(plugin.rs line 143) followed by introspection; `none` is a panic. -/
def processCandidate (load : LoadFn) (path : String) : Option Plugin :=
  match load path with
  | none => none
  | some lib => introspect lib path

/-- The `for path in ...` loop of `query_plugins` (plugin.rs lines 140-173):
each successfully processed candidate is pushed onto the accumulated list;
the first failure aborts the whole loop (the source panics). -/
def scanLoop (load : LoadFn) : List String → List Plugin → Option (List Plugin)
  | [], acc => some acc
  | path :: rest, acc =>
    match processCandidate load path with
    | none => none
    | some plugin => scanLoop load rest (acc ++ [plugin])

/-- Embeds `PluginManager::query_plugins` (plugin.rs lines 132-184):
clear `plugin_list`, glob the pattern `{plugin_dir}/*{_plugin_ext}`
(unwrapping the pattern-compilation result), run the candidate loop, and
return the manager together with the returned `&Vec<Plugin>` view.
`none` is a panic anywhere in the body. -/
def PluginManager.query_plugins (g : GlobFn) (load : LoadFn)
    (pm : PluginManager) (plugin_dir : String) :
    Option (PluginManager × List Plugin) :=
  let cleared : PluginManager := { pm with plugin_list := [] }
  match g (plugin_dir ++ "/*" ++ pm._plugin_ext) with
  | none => none
  | some globRes =>
    match scanLoop load (globRes.filterMap id) [] with
    | none => none
    | some finalList =>
        some ({ cleared with plugin_list := finalList }, finalList)

/-- The linear-search loop of `get_plugin` (plugin.rs lines 195-207):
returns the element at the index of the first name match (which is that
element itself), or `Err (())` when the loop falls through. -/
def getPluginLoop (name : String) : List Plugin → Except Unit Plugin
  | [] => Except.error ()
  | p :: rest =>
      if p.name = name then Except.ok p else getPluginLoop name rest

/-- Embeds `PluginManager::get_plugin` (plugin.rs lines 193-208). -/
def PluginManager.get_plugin (pm : PluginManager) (name : String) :
    Except Unit Plugin :=
  getPluginLoop name pm.plugin_list

/-- Spec-side restatement of the candidate loop: process every candidate in
order and collect the records, failing when any candidate fails.  Used to
characterise `scanLoop` (which threads a push-accumulator instead). -/
def processAll (load : LoadFn) : List String → Option (List Plugin)
  | [] => some []
  | path :: rest =>
    match processCandidate load path with
    | none => none
    | some plugin =>
      match processAll load rest with
      | none => none
      | some plugins => some (plugin :: plugins)

/-- Spec-side restatement of a whole scan: glob the pattern, keep the `Ok`
paths, process all candidates in enumeration order.  Depends only on the
environment, the suffix and the directory — not on any prior registry
contents. -/
def scanSpec (g : GlobFn) (load : LoadFn) (ext dir : String) :
    Option (List Plugin) :=
  match g (dir ++ "/*" ++ ext) with
  | none => none
  | some globRes => processAll load (globRes.filterMap id)

/-- Model of the filesystem seen by the glob call: each directory path maps
to the list of names of its direct children (files), or to `none` when the
directory is absent.  Entries of subdirectories live under their own keys
and are never part of a parent's list. -/
structure FileSystem where
  dirs : String → Option (List String)

/-- Modelled from the documented semantics of the external `glob` crate for
the pattern shape `{dir}/*{ext}` the source builds (plugin.rs line 140):
`*` matches within a single path component, so the pattern matches exactly
the direct children of `dir` whose name ends with `ext`; an absent
directory yields no matches rather than an error. -/
def globModelMatches (fs : FileSystem) (dir ext : String) : List String :=
  match fs.dirs dir with
  | none => []
  | some files =>
    (files.filter (fun f => ext.data.isSuffixOf f.data)).map
      (fun f => dir ++ "/" ++ f)

/-- Modelled from the documented semantics of the external `glob` crate's
pattern compiler: a pattern that opens a character class with `[` but never
closes it with `]` fails to compile (a `PatternError`), so `glob` returns
`Err`.  This predicate is a sufficient condition for pattern invalidity. -/
def bracketUnclosed (pat : String) : Bool :=
  pat.data.contains '[' && !(pat.data.contains ']')

/-- The plugin managers reachable by the core's own operations: construction
(`PluginManager::new`) and successful scans (`query_plugins`).  `get_plugin`
takes `&self` and cannot change the manager, so it adds no transition. -/
inductive Reachable : PluginManager → Prop where
  | construct : ∀ os pm, PluginManager.new os = some pm → Reachable pm
  | scan : ∀ (g : GlobFn) (load : LoadFn) dir pm pm' ret, Reachable pm →
      PluginManager.query_plugins g load pm dir = some (pm', ret) →
      Reachable pm'

/- Concrete test fixtures for witnesses and counterexamples. -/

/-- Fixture: a manager as constructed on Linux (empty list, suffix ".so"). -/
def pmLinux : PluginManager := { plugin_list := [], _plugin_ext := ".so" }

/-- Fixture: a well-behaved module at `d/a.so`. -/
def modA : NativeModule :=
  { get_name := some "alpha", get_author := some "authA",
    get_description := some "descA", get_type := some PluginType.RenderBackend }

/-- Fixture: a well-behaved module at `d/c.so`. -/
def modC : NativeModule :=
  { get_name := some "gamma", get_author := some "authC",
    get_description := some "descC", get_type := some PluginType.AudioBackend }

/-- Fixture: filesystem with one directory `d` holding `a.so`, `b.txt`,
`c.so`. -/
def fsABC : FileSystem :=
  { dirs := fun d => if d = "d" then some ["a.so", "b.txt", "c.so"] else none }

/-- Fixture: glob environment agreeing with the glob model on `fsABC`. -/
def gABC : GlobFn := fun _ => some [some "d/a.so", some "d/c.so"]

/-- Fixture: loader resolving `d/a.so` to `modA` and `d/c.so` to `modC`. -/
def loadAC : LoadFn := fun p =>
  if p = "d/a.so" then some modA
  else if p = "d/c.so" then some modC
  else none

/-- Fixture: the record a scan builds from `modA` at `d/a.so`. -/
def recA : Plugin :=
  { name := "alpha", author := "authA", description := "descA",
    path := "d/a.so", plugin_type := PluginType.RenderBackend,
    plugin_state := PluginState.Unloaded }

/-- Fixture: the record a scan builds from `modC` at `d/c.so`. -/
def recC : Plugin :=
  { name := "gamma", author := "authC", description := "descC",
    path := "d/c.so", plugin_type := PluginType.AudioBackend,
    plugin_state := PluginState.Unloaded }

/-- Fixture: the manager after scanning `d` with `gABC`/`loadAC`. -/
def pmAC : PluginManager := { plugin_list := [recA, recC], _plugin_ext := ".so" }

/-- Fixture: glob environment returning a single candidate `d/bad.so`. -/
def gBad : GlobFn := fun _ => some [some "d/bad.so"]

/-- Fixture: loader failing on every path (every `Library::new` fails). -/
def loadNone : LoadFn := fun _ => none

/-- Fixture: glob environment for an absent directory (no matches). -/
def gEmpty : GlobFn := fun _ => some []

/-- Fixture: the absent-everywhere filesystem. -/
def fsNone : FileSystem := { dirs := fun _ => none }

/-- Fixture: glob environment that fails on every pattern with an unclosed
bracket and matches nothing otherwise. -/
def gStrict : GlobFn := fun pat =>
  if bracketUnclosed pat then none else some []

/-- Fixture: two modules at different paths declaring the same plugin name
"dup" but different authors, descriptions and paths. -/
def loadDup : LoadFn := fun p =>
  if p = "d/a.so" then
    some { get_name := some "dup", get_author := some "A1",
           get_description := some "D1",
           get_type := some PluginType.RenderBackend }
  else if p = "d/b.so" then
    some { get_name := some "dup", get_author := some "A2",
           get_description := some "D2",
           get_type := some PluginType.RenderBackend }
  else none

/-- Fixture: glob environment listing the two duplicate-name candidates. -/
def gDup : GlobFn := fun _ => some [some "d/a.so", some "d/b.so"]

/-- Fixture: the first duplicate-name record. -/
def recDup1 : Plugin :=
  { name := "dup", author := "A1", description := "D1", path := "d/a.so",
    plugin_type := PluginType.RenderBackend,
    plugin_state := PluginState.Unloaded }

/-- Fixture: the second duplicate-name record. -/
def recDup2 : Plugin :=
  { name := "dup", author := "A2", description := "D2", path := "d/b.so",
    plugin_type := PluginType.RenderBackend,
    plugin_state := PluginState.Unloaded }

/-- Fixture: the manager after the duplicate-name scan. -/
def pmDup : PluginManager :=
  { plugin_list := [recDup1, recDup2], _plugin_ext := ".so" }

/-! Helper lemmas about the embedded operations. -/

/-- Full characterisation of a successful single-candidate introspection:
every field of the produced record comes verbatim from the module's entry
points, the path is the candidate's path, and the state is `Unloaded`. -/
theorem introspect_some {lib : NativeModule} {path : String} {r : Plugin}
    (h : introspect lib path = some r) :
    lib.get_name = some r.name ∧ lib.get_author = some r.author ∧
    lib.get_description = some r.description ∧
    lib.get_type = some r.plugin_type ∧ r.path = path ∧
    r.plugin_state = PluginState.Unloaded := by
  obtain ⟨gn, ga, gd, gt⟩ := lib
  cases gn <;> cases ga <;> cases gd <;> cases gt <;>
    simp only [introspect] at h <;>
    try exact Option.noConfusion h
  injection h with h
  subst h
  exact ⟨rfl, rfl, rfl, rfl, rfl, rfl⟩

/-- Characterisation of a successful candidate processing: the library
opened and introspection succeeded. -/
theorem processCandidate_spec {load : LoadFn} {path : String} {r : Plugin}
    (h : processCandidate load path = some r) :
    ∃ lib, load path = some lib ∧
      lib.get_name = some r.name ∧ lib.get_author = some r.author ∧
      lib.get_description = some r.description ∧
      lib.get_type = some r.plugin_type ∧ r.path = path ∧
      r.plugin_state = PluginState.Unloaded := by
  unfold processCandidate at h
  cases hl : load path with
  | none => rw [hl] at h; cases h
  | some lib =>
    rw [hl] at h
    exact ⟨lib, rfl, introspect_some h⟩

/-- The push-accumulator loop of the source equals the spec-side
map-like processing of all candidates. -/
theorem scanLoop_eq_processAll (load : LoadFn) (l : List String) :
    ∀ acc, scanLoop load l acc =
      (processAll load l).map (fun r => acc ++ r) := by
  induction l with
  | nil => intro acc; simp [scanLoop, processAll]
  | cons path rest ih =>
    intro acc
    cases hp : processCandidate load path with
    | none => simp [scanLoop, processAll, hp]
    | some plugin =>
      simp only [scanLoop, processAll, hp]
      rw [ih (acc ++ [plugin])]
      cases processAll load rest with
      | none => rfl
      | some plugins => simp

/-- A scan is the spec-side `scanSpec`, with the resulting list installed
into the manager (replacing whatever `plugin_list` held before) and
returned as the view. -/
theorem query_plugins_eq (g : GlobFn) (load : LoadFn) (pm : PluginManager)
    (dir : String) :
    PluginManager.query_plugins g load pm dir =
      (scanSpec g load pm._plugin_ext dir).map
        (fun l => ({ pm with plugin_list := l }, l)) := by
  cases hg : g (dir ++ "/*" ++ pm._plugin_ext) with
  | none => simp [PluginManager.query_plugins, scanSpec, hg]
  | some globRes =>
    simp only [PluginManager.query_plugins, scanSpec, hg]
    rw [scanLoop_eq_processAll]
    cases processAll load (globRes.filterMap id) with
    | none => rfl
    | some l => simp

/-- Destructor for a successful scan: the resulting manager and view. -/
theorem query_plugins_some {g : GlobFn} {load : LoadFn} {pm pm' : PluginManager}
    {dir : String} {ret : List Plugin}
    (h : PluginManager.query_plugins g load pm dir = some (pm', ret)) :
    pm' = { pm with plugin_list := ret } ∧
    scanSpec g load pm._plugin_ext dir = some ret := by
  rw [query_plugins_eq] at h
  cases hs : scanSpec g load pm._plugin_ext dir with
  | none => rw [hs] at h; cases h
  | some l =>
    rw [hs] at h
    simp only [Option.map_some', Option.some.injEq, Prod.mk.injEq] at h
    obtain ⟨h1, h2⟩ := h
    subst h2
    exact ⟨h1.symm, rfl⟩

/-- If any candidate in the list fails to process, the whole loop fails. -/
theorem processAll_none_of_mem (load : LoadFn) {l : List String}
    {path : String} (hmem : path ∈ l)
    (hfail : processCandidate load path = none) :
    processAll load l = none := by
  induction l with
  | nil => cases hmem
  | cons q rest ih =>
    cases hmem with
    | head => simp [processAll, hfail]
    | tail _ hm =>
      simp only [processAll]
      cases processCandidate load q with
      | none => rfl
      | some plugin => rw [ih hm]

/-- Every record in a successful processing run comes from some candidate
of the list. -/
theorem processAll_mem {load : LoadFn} :
    ∀ {l : List String} {ret : List Plugin},
      processAll load l = some ret → ∀ r ∈ ret,
      ∃ path, path ∈ l ∧ processCandidate load path = some r := by
  intro l
  induction l with
  | nil =>
    intro ret h r hr
    simp only [processAll, Option.some.injEq] at h
    subst h
    cases hr
  | cons path rest ih =>
    intro ret h r hr
    simp only [processAll] at h
    cases hp : processCandidate load path with
    | none => rw [hp] at h; cases h
    | some plugin =>
      rw [hp] at h
      cases hrest : processAll load rest with
      | none => rw [hrest] at h; cases h
      | some plugins =>
        rw [hrest] at h
        injection h with h
        subst h
        cases hr with
        | head => exact ⟨path, List.mem_cons_self path rest, hp⟩
        | tail _ hm =>
          obtain ⟨p, hpl, hpc⟩ := ih hrest r hm
          exact ⟨p, List.mem_cons_of_mem _ hpl, hpc⟩

/-- The paths of the records of a successful processing run are exactly the
candidate paths, in order. -/
theorem processAll_paths {load : LoadFn} :
    ∀ {l : List String} {ret : List Plugin},
      processAll load l = some ret → ret.map Plugin.path = l := by
  intro l
  induction l with
  | nil =>
    intro ret h
    simp only [processAll, Option.some.injEq] at h
    subst h
    rfl
  | cons path rest ih =>
    intro ret h
    simp only [processAll] at h
    cases hp : processCandidate load path with
    | none => rw [hp] at h; cases h
    | some plugin =>
      rw [hp] at h
      cases hrest : processAll load rest with
      | none => rw [hrest] at h; cases h
      | some plugins =>
        rw [hrest] at h
        injection h with h
        subst h
        obtain ⟨_, _, _, _, _, _, hpath, _⟩ := processCandidate_spec hp
        simp [hpath, ih hrest]

/-- Construction always yields an empty record sequence. -/
theorem new_plugin_list_empty {os : String} {pm : PluginManager}
    (h : PluginManager.new os = some pm) : pm.plugin_list = [] := by
  unfold PluginManager.new at h
  split at h
  · injection h with h
    subst h
    rfl
  · split at h
    · injection h with h
      subst h
      rfl
    · split at h
      · injection h with h
        subst h
        rfl
      · simp at h

/-- The lookup loop misses exactly when no record's name matches. -/
theorem getPluginLoop_error_iff (name : String) (l : List Plugin) :
    getPluginLoop name l = Except.error () ↔ ∀ q ∈ l, q.name ≠ name := by
  induction l with
  | nil => simp [getPluginLoop]
  | cons p rest ih =>
    simp only [getPluginLoop]
    by_cases hp : p.name = name
    · simp [hp]
    · simp [hp, ih]

/-- A hit of the lookup loop is the first name match of the sequence. -/
theorem getPluginLoop_ok {name : String} {l : List Plugin} {p : Plugin}
    (h : getPluginLoop name l = Except.ok p) :
    p.name = name ∧
    ∃ l₁ l₂, l = l₁ ++ p :: l₂ ∧ ∀ q ∈ l₁, q.name ≠ name := by
  induction l with
  | nil => simp [getPluginLoop] at h
  | cons q rest ih =>
    simp only [getPluginLoop] at h
    by_cases hq : q.name = name
    · rw [if_pos hq] at h
      injection h with h
      subst h
      exact ⟨hq, [], rest, rfl, by simp⟩
    · rw [if_neg hq] at h
      obtain ⟨h1, l₁, l₂, heq, hall⟩ := ih h
      refine ⟨h1, q :: l₁, l₂, by rw [heq, List.cons_append], ?_⟩
      intro x hx
      cases hx with
      | head => exact hq
      | tail _ hm => exact hall x hm

/-- The lookup loop finds an element none of whose predecessors match. -/
theorem getPluginLoop_first {r : Plugin} :
    ∀ (l₁ l₂ : List Plugin), (∀ q ∈ l₁, q.name ≠ r.name) →
      getPluginLoop r.name (l₁ ++ r :: l₂) = Except.ok r := by
  intro l₁
  induction l₁ with
  | nil => intro l₂ _; simp [getPluginLoop]
  | cons q rest ih =>
    intro l₂ hall
    simp only [List.cons_append, getPluginLoop]
    rw [if_neg (hall q (List.mem_cons_self q rest))]
    exact ih l₂ (fun x hx => hall x (List.mem_cons_of_mem _ hx))

/-- Left cancellation for string concatenation. -/
theorem string_append_left_cancel {a b c : String}
    (h : a ++ b = a ++ c) : b = c := by
  have hd : a.data ++ b.data = a.data ++ c.data := by
    rw [← String.data_append, ← String.data_append, h]
  have hbc : b.data = c.data := List.append_cancel_left hd
  cases b with
  | mk bd =>
    cases c with
    | mk cd => exact congrArg String.mk hbc

/-- Destructor for a successful `scanSpec` run. -/
theorem scanSpec_some {g : GlobFn} {load : LoadFn} {ext dir : String}
    {ret : List Plugin} (h : scanSpec g load ext dir = some ret) :
    ∃ globRes, g (dir ++ "/*" ++ ext) = some globRes ∧
      processAll load (globRes.filterMap id) = some ret := by
  unfold scanSpec at h
  cases hg : g (dir ++ "/*" ++ ext) with
  | none => rw [hg] at h; exact Option.noConfusion h
  | some globRes =>
    rw [hg] at h
    exact ⟨globRes, rfl, h⟩

/-! The claims. -/

/-- C1: in the reference behavior of `query_plugins`, a failure to open a
candidate file as a native dynamic module, or a failure to resolve any of
the four required entry points, is fatal to the whole scan: if any glob
candidate fails to process, the operation aborts (panics) rather than
skipping the bad file and continuing. -/
theorem c1_candidate_failure_aborts_scan (g : GlobFn) (load : LoadFn)
    (pm : PluginManager) (dir : String) (globRes : List (Option String))
    (path : String)
    (hg : g (dir ++ "/*" ++ pm._plugin_ext) = some globRes)
    (hmem : path ∈ globRes.filterMap id)
    (hfail : processCandidate load path = none) :
    PluginManager.query_plugins g load pm dir = none := by
  rw [query_plugins_eq]
  simp only [scanSpec, hg]
  rw [processAll_none_of_mem load hmem hfail]
  rfl

/-- Witness for C1: a scan over one candidate whose `Library::new` fails
returns the panic outcome. -/
theorem c1_witness :
    PluginManager.query_plugins gBad loadNone pmLinux "d" = none :=
  c1_candidate_failure_aborts_scan gBad loadNone pmLinux "d"
    [some "d/bad.so"] "d/bad.so" rfl (by decide) rfl

/-- C2: for every registry state and every directory, a scan is fully
determined by the environment, the suffix and the directory.  It equals the
spec-side `scanSpec` (exactly this scan's successfully-processed candidates,
in enumeration order), installed as the new `plugin_list` — so no record
from any prior scan remains, and the returned view is the new list. -/
theorem c2_scan_replaces_registry (g : GlobFn) (load : LoadFn)
    (pm : PluginManager) (dir : String) :
    PluginManager.query_plugins g load pm dir =
      (scanSpec g load pm._plugin_ext dir).map
        (fun l => ({ pm with plugin_list := l }, l)) :=
  query_plugins_eq g load pm dir

/-- C3: `get_plugin` misses (with the typed `Err (())` outcome, never a
record and never a panic) exactly when no record's name is an exact,
case-sensitive match, and a hit returns the first matching record in
sequence order. -/
theorem c3_get_plugin_first_exact_match (pm : PluginManager) (name : String) :
    (pm.get_plugin name = Except.error () ↔
      ∀ q ∈ pm.plugin_list, q.name ≠ name) ∧
    (∀ p, pm.get_plugin name = Except.ok p →
      p.name = name ∧
      ∃ l₁ l₂, pm.plugin_list = l₁ ++ p :: l₂ ∧ ∀ q ∈ l₁, q.name ≠ name) := by
  constructor
  · exact getPluginLoop_error_iff name pm.plugin_list
  · intro p hp
    exact getPluginLoop_ok hp

/-- Witness for C3: a name matching no record yields the `NotFound`
outcome on a concrete registry. -/
theorem c3_witness :
    pmAC.get_plugin "nonexistent-plugin-xyz" = Except.error () :=
  (c3_get_plugin_first_exact_match pmAC "nonexistent-plugin-xyz").1.mpr
    (by decide)

/-- C4: every record a scan produces carries exactly the category returned
by the `get_type` entry point of the module at the record's path (never
inferred from file name or path), and that category is one of the three
fixed ones. -/
theorem c4_category_verbatim (g : GlobFn) (load : LoadFn)
    (pm pm' : PluginManager) (dir : String) (ret : List Plugin) (r : Plugin)
    (hq : PluginManager.query_plugins g load pm dir = some (pm', ret))
    (hr : r ∈ ret) :
    (load r.path).bind NativeModule.get_type = some r.plugin_type ∧
    (r.plugin_type = PluginType.AudioBackend ∨
     r.plugin_type = PluginType.RenderBackend ∨
     r.plugin_type = PluginType.WindowBackend) := by
  obtain ⟨-, hs⟩ := query_plugins_some hq
  obtain ⟨globRes, -, hall⟩ := scanSpec_some hs
  obtain ⟨path, -, hpc⟩ := processAll_mem hall r hr
  obtain ⟨lib, hl, -, -, -, ht, hpath, -⟩ := processCandidate_spec hpc
  subst hpath
  constructor
  · rw [hl]
    exact ht
  · cases r.plugin_type with
    | AudioBackend => exact Or.inl rfl
    | RenderBackend => exact Or.inr (Or.inl rfl)
    | WindowBackend => exact Or.inr (Or.inr rfl)

/-- Witness for C4: the record discovered at `d/a.so` carries the category
its module declares. -/
theorem c4_witness :
    (loadAC recA.path).bind NativeModule.get_type = some recA.plugin_type ∧
    (recA.plugin_type = PluginType.AudioBackend ∨
     recA.plugin_type = PluginType.RenderBackend ∨
     recA.plugin_type = PluginType.WindowBackend) :=
  c4_category_verbatim gABC loadAC pmLinux pmAC "d" [recA, recC] recA
    (by decide) (by decide)

/-- C5: every record is appended with state `Unloaded`, and no core
operation (construction, scan, lookup) transitions any record's state, so
after any sequence of core operations every record of the registry has
state `Unloaded`. -/
theorem c5_all_reachable_records_unloaded (pm : PluginManager) (r : Plugin)
    (hreach : Reachable pm) (hr : r ∈ pm.plugin_list) :
    r.plugin_state = PluginState.Unloaded := by
  revert hr
  induction hreach with
  | construct os pm0 hnew =>
    intro hr
    rw [new_plugin_list_empty hnew] at hr
    cases hr
  | scan g load dir pm0 pm' ret hre hq ih =>
    intro hr
    obtain ⟨hpm', hs⟩ := query_plugins_some hq
    obtain ⟨globRes, -, hall⟩ := scanSpec_some hs
    subst hpm'
    obtain ⟨path, -, hpc⟩ := processAll_mem hall r hr
    obtain ⟨lib, -, -, -, -, -, -, hstate⟩ := processCandidate_spec hpc
    exact hstate

/-- Witness for C5: the record discovered at `d/a.so` on a manager reached
by construction followed by a scan has state `Unloaded`. -/
theorem c5_witness : recA.plugin_state = PluginState.Unloaded :=
  c5_all_reachable_records_unloaded pmAC recA
    (Reachable.scan gABC loadAC "d" pmLinux pmAC [recA, recC]
      (Reachable.construct "linux" pmLinux (by decide)) (by decide))
    (by decide)

/-- C6: when the glob environment agrees with the glob-crate model on the
constructed pattern, the records of a successful scan have exactly the
suffix-matching direct children of the directory as their paths, in
enumeration order, and a child whose name does not end with the platform
suffix never yields a record. -/
theorem c6_candidates_suffix_filtered (g : GlobFn) (load : LoadFn)
    (fs : FileSystem) (pm pm' : PluginManager) (dir : String)
    (ret : List Plugin)
    (hconf : g (dir ++ "/*" ++ pm._plugin_ext) =
      some ((globModelMatches fs dir pm._plugin_ext).map some))
    (hq : PluginManager.query_plugins g load pm dir = some (pm', ret)) :
    ret.map Plugin.path = globModelMatches fs dir pm._plugin_ext ∧
    ∀ f : String, pm._plugin_ext.data.isSuffixOf f.data = false →
      (dir ++ "/" ++ f) ∉ ret.map Plugin.path := by
  obtain ⟨-, hs⟩ := query_plugins_some hq
  obtain ⟨globRes, hg, hall⟩ := scanSpec_some hs
  rw [hconf] at hg
  injection hg with hg
  have hpaths : ret.map Plugin.path = globRes.filterMap id :=
    processAll_paths hall
  rw [← hg] at hpaths
  have hfm : ((globModelMatches fs dir pm._plugin_ext).map some).filterMap id
      = globModelMatches fs dir pm._plugin_ext := by
    simp
  rw [hfm] at hpaths
  refine ⟨hpaths, ?_⟩
  intro f hsuf hmem
  rw [hpaths] at hmem
  unfold globModelMatches at hmem
  cases hd : fs.dirs dir with
  | none =>
    rw [hd] at hmem
    cases hmem
  | some files =>
    rw [hd] at hmem
    rw [List.mem_map] at hmem
    obtain ⟨f', hf', heq⟩ := hmem
    have hff : f' = f := string_append_left_cancel heq
    subst hff
    rw [List.mem_filter] at hf'
    rw [hf'.2] at hsuf
    cases hsuf

/-- Witness for C6: a directory `d` with children `a.so`, `b.txt`, `c.so`
yields exactly the records for `a.so` and `c.so`, and `b.txt` yields no
record. -/
theorem c6_witness :
    [recA, recC].map Plugin.path =
      globModelMatches fsABC "d" pmLinux._plugin_ext ∧
    ("d" ++ "/" ++ "b.txt") ∉ [recA, recC].map Plugin.path := by
  have h := c6_candidates_suffix_filtered gABC loadAC fsABC pmLinux pmAC "d"
    [recA, recC] (by decide) (by decide)
  exact ⟨h.1, h.2 "b.txt" (by decide)⟩

/-- C7: construction initialises an empty record sequence and selects the
suffix `.dll` on Windows, `.so` on Linux, `.dylib` on macOS; on any other
platform it is a fatal error (the panic outcome) rather than a fallback
suffix. -/
theorem c7_new_suffix_mapping :
    PluginManager.new "windows" =
      some { plugin_list := [], _plugin_ext := ".dll" } ∧
    PluginManager.new "linux" =
      some { plugin_list := [], _plugin_ext := ".so" } ∧
    PluginManager.new "macos" =
      some { plugin_list := [], _plugin_ext := ".dylib" } ∧
    ∀ os : String, os ≠ "windows" → os ≠ "linux" → os ≠ "macos" →
      PluginManager.new os = none := by
  refine ⟨rfl, rfl, rfl, ?_⟩
  intro os h1 h2 h3
  simp [PluginManager.new, h1, h2, h3]

/-- Witness for C7: construction on an unsupported platform is fatal. -/
theorem c7_witness : PluginManager.new "freebsd" = none :=
  c7_new_suffix_mapping.2.2.2 "freebsd" (by decide) (by decide) (by decide)

/-- C8: when the glob environment agrees with the glob-crate model and the
directory is absent or has zero suffix-matching children (the model yields
no matches), the scan succeeds with an empty sequence — never an error. -/
theorem c8_empty_or_missing_directory (g : GlobFn) (load : LoadFn)
    (fs : FileSystem) (pm : PluginManager) (dir : String)
    (hconf : g (dir ++ "/*" ++ pm._plugin_ext) =
      some ((globModelMatches fs dir pm._plugin_ext).map some))
    (hempty : globModelMatches fs dir pm._plugin_ext = []) :
    PluginManager.query_plugins g load pm dir =
      some ({ pm with plugin_list := [] }, []) := by
  rw [query_plugins_eq]
  rw [hempty] at hconf
  simp [scanSpec, hconf, processAll]

/-- Witness for C8: scanning an absent directory yields the empty registry,
not an error. -/
theorem c8_witness :
    PluginManager.query_plugins gEmpty loadNone pmLinux "missing" =
      some (pmLinux, []) :=
  c8_empty_or_missing_directory gEmpty loadNone fsNone pmLinux "missing"
    (by decide) (by decide)

/-- Counterexample for C9: a scan of two modules that declare the same name
"dup" but different authors, descriptions and paths produces the records
`recDup1` and `recDup2`; looking up `recDup2.name` returns `recDup1`, whose
`author`, `description` and `path` all differ from `recDup2`'s — so
`get_plugin (record.name)` does not return a record with fields identical
to `record`'s for every record produced by a scan. -/
theorem c9_counterexample :
    PluginManager.query_plugins gDup loadDup pmLinux "d" =
      some (pmDup, [recDup1, recDup2]) ∧
    recDup2 ∈ [recDup1, recDup2] ∧
    pmDup.get_plugin recDup2.name = Except.ok recDup1 ∧
    recDup1.author ≠ recDup2.author ∧
    recDup1.description ≠ recDup2.description ∧
    recDup1.path ≠ recDup2.path :=
  ⟨by decide, by decide, by rfl, by decide, by decide, by decide⟩

/-- C9 (amended): for every record produced by a scan such that no earlier
record of the scan has the same name, `get_plugin (record.name)` returns
that very record (hence all of `name`, `author`, `description`, `path` and
`category` are identical). -/
theorem c9_amended_lookup_roundtrip (g : GlobFn) (load : LoadFn)
    (pm pm' : PluginManager) (dir : String) (ret l₁ l₂ : List Plugin)
    (r : Plugin)
    (hq : PluginManager.query_plugins g load pm dir = some (pm', ret))
    (hsplit : ret = l₁ ++ r :: l₂)
    (hfirst : ∀ q ∈ l₁, q.name ≠ r.name) :
    pm'.get_plugin r.name = Except.ok r := by
  obtain ⟨hpm', -⟩ := query_plugins_some hq
  subst hpm'
  subst hsplit
  exact getPluginLoop_first l₁ l₂ hfirst

/-- Witness for the amended C9: looking up the second record of a
duplicate-free scan returns that record. -/
theorem c9_witness : pmAC.get_plugin recC.name = Except.ok recC :=
  c9_amended_lookup_roundtrip gABC loadAC pmLinux pmAC "d" [recA, recC]
    [recA] [] recC (by decide) (by decide) (by decide)

/-- C10: for a directory argument that makes the constructed pattern
`{directory}/*{suffix}` an invalid glob pattern — here `"["`, which opens a
character class that is never closed — the scan panics (the glob
compilation result is unwrapped unconditionally), for every glob
environment that fails on unclosed-bracket patterns. -/
theorem c10_invalid_pattern_panics (g : GlobFn) (load : LoadFn)
    (pm : PluginManager)
    (hconf : ∀ pat, bracketUnclosed pat = true → g pat = none)
    (hext : pm._plugin_ext.data.contains ']' = false) :
    PluginManager.query_plugins g load pm "[" = none := by
  have hdata : ("[" ++ "/*" ++ pm._plugin_ext).data
      = '[' :: '/' :: '*' :: pm._plugin_ext.data := by
    rw [String.data_append, String.data_append]
    rfl
  have h1 : ("[" ++ "/*" ++ pm._plugin_ext).data.contains '[' = true := by
    rw [hdata]
    rfl
  have h2 : ("[" ++ "/*" ++ pm._plugin_ext).data.contains ']'
      = pm._plugin_ext.data.contains ']' := by
    rw [hdata]
    rfl
  have hpat : bracketUnclosed ("[" ++ "/*" ++ pm._plugin_ext) = true := by
    unfold bracketUnclosed
    rw [h1, h2, hext]
    rfl
  have hg := hconf _ hpat
  rw [query_plugins_eq]
  simp only [scanSpec, hg]
  rfl

/-- Witness for C10: a conformant glob environment makes the scan of the
directory `"["` panic. -/
theorem c10_witness :
    PluginManager.query_plugins gStrict loadNone pmLinux "[" = none :=
  c10_invalid_pattern_panics gStrict loadNone pmLinux
    (fun pat h => by simp [gStrict, h]) (by decide)

end IonCore
